import Mathlib

/-!
Verification of the hotel-safe lock controller (`src/safe.ts`).

The TypeScript class `SafeImpl` is shallowly embedded as a pure state type
`SafeImpl` with a transition function `enter : SafeImpl → Button → SafeImpl`;
each private handler of the class becomes one Lean function with the same
name.  JavaScript strings are modelled as `List Char` (concatenation is
append, `padEnd(6, ' ')` is `padEnd6`, `substring(0, 6)` is `List.take 6`).
-/

namespace HotelSafe

/-- Buttons of the safe, in the order of the TypeScript enum `Button`. -/
inductive Button where
  | D0 | D1 | D2 | D3 | D4 | D5 | D6 | D7 | D8 | D9
  | LOCK | KEY | PIN
  deriving DecidableEq, Repr

/-- States of the safe, mirroring the private TypeScript enum `SafeState`. -/
inductive SafeState where
  | LOCKED_IDLE
  | LOCKED_ERROR
  | ENTERING_PIN
  | UNLOCKED
  | SETTING_NEW_PIN
  deriving DecidableEq, Repr

/-- The mutable fields of the TypeScript class `SafeImpl`. -/
structure SafeImpl where
  locked : Bool
  display : List Char
  currentPin : List Char
  state : SafeState
  enteredDigits : List Char
  newPinBuffer : List Char
  deriving DecidableEq, Repr

/-- Field initializers of `SafeImpl`: locked, blank 6-space display,
factory-default PIN `123456`, state `LOCKED_IDLE`, empty buffers. -/
def initialSafe : SafeImpl :=
  { locked := true
    display := "      ".toList
    currentPin := "123456".toList
    state := SafeState.LOCKED_IDLE
    enteredDigits := []
    newPinBuffer := [] }

/-- `isDigitButton`: true exactly for `D0`..`D9`
(the TypeScript range check `button >= Button.D0 && button <= Button.D9`). -/
def isDigitButton : Button → Bool
  | Button.D0 | Button.D1 | Button.D2 | Button.D3 | Button.D4
  | Button.D5 | Button.D6 | Button.D7 | Button.D8 | Button.D9 => true
  | _ => false

/-- `buttonToDigit`: the digit character of a digit button
(`button.toString()` on the numeric enum value 0..9), `""` otherwise. -/
def buttonToDigit : Button → List Char
  | Button.D0 => ['0']
  | Button.D1 => ['1']
  | Button.D2 => ['2']
  | Button.D3 => ['3']
  | Button.D4 => ['4']
  | Button.D5 => ['5']
  | Button.D6 => ['6']
  | Button.D7 => ['7']
  | Button.D8 => ['8']
  | Button.D9 => ['9']
  | _ => []

/-- JavaScript `s.padEnd(6, ' ')`: right-pad with spaces to length 6;
a string already of length 6 or more is returned unchanged. -/
def padEnd6 (s : List Char) : List Char :=
  s ++ List.replicate (6 - s.length) ' '

/-- `handleLockedIdle`: KEY starts PIN entry, LOCK is a no-op,
a digit is an error, PIN is ignored. -/
def handleLockedIdle (s : SafeImpl) (b : Button) : SafeImpl :=
  if b = Button.KEY then
    { s with state := SafeState.ENTERING_PIN
             enteredDigits := []
             display := "      ".toList }
  else if b = Button.LOCK then
    s
  else if isDigitButton b then
    { s with state := SafeState.LOCKED_ERROR
             display := "ERROR ".toList }
  else
    s

/-- `handleLockedError`: KEY clears the error and starts PIN entry;
every other button keeps showing `ERROR `. -/
def handleLockedError (s : SafeImpl) (b : Button) : SafeImpl :=
  if b = Button.KEY then
    { s with state := SafeState.ENTERING_PIN
             enteredDigits := []
             display := "      ".toList }
  else
    { s with display := "ERROR ".toList }

/-- `handleEnteringPin`: a digit is appended and shown padded; at 6 digits
the entry is compared to `currentPin` and the safe unlocks or resets; KEY
resets the entry; other buttons are ignored. -/
def handleEnteringPin (s : SafeImpl) (b : Button) : SafeImpl :=
  if isDigitButton b then
    let entered := s.enteredDigits ++ buttonToDigit b
    let s1 := { s with enteredDigits := entered, display := padEnd6 entered }
    if entered.length = 6 then
      if entered = s.currentPin then
        { s1 with locked := false
                  display := "OPEN  ".toList
                  state := SafeState.UNLOCKED
                  enteredDigits := [] }
      else
        { s1 with display := "      ".toList
                  state := SafeState.LOCKED_IDLE
                  enteredDigits := [] }
    else
      s1
  else if b = Button.KEY then
    { s with enteredDigits := []
             display := "      ".toList }
  else
    s

/-- `handleUnlocked`: LOCK locks the safe, PIN starts setting a new PIN,
other buttons are ignored. -/
def handleUnlocked (s : SafeImpl) (b : Button) : SafeImpl :=
  if b = Button.LOCK then
    { s with locked := true
             display := "CLOSED".toList
             state := SafeState.LOCKED_IDLE }
  else if b = Button.PIN then
    { s with state := SafeState.SETTING_NEW_PIN
             newPinBuffer := []
             display := "      ".toList }
  else
    s

/-- `handleSettingNewPin`: a digit is appended and shown padded, then the
buffer is truncated to 6 if it exceeded 6; PIN with exactly 6 buffered
digits commits the new PIN; everything else is ignored. -/
def handleSettingNewPin (s : SafeImpl) (b : Button) : SafeImpl :=
  if isDigitButton b then
    let buf := s.newPinBuffer ++ buttonToDigit b
    let s1 := { s with newPinBuffer := buf, display := padEnd6 buf }
    if buf.length > 6 then
      { s1 with newPinBuffer := buf.take 6 }
    else
      s1
  else if b = Button.PIN then
    if s.newPinBuffer.length = 6 then
      { s with currentPin := s.newPinBuffer
               display := "CODE  ".toList
               state := SafeState.UNLOCKED
               newPinBuffer := [] }
    else
      s
  else
    s

/-- `enter`: dispatch on the current state, as the TypeScript `switch`. -/
def enter (s : SafeImpl) (b : Button) : SafeImpl :=
  match s.state with
  | SafeState.LOCKED_IDLE => handleLockedIdle s b
  | SafeState.LOCKED_ERROR => handleLockedError s b
  | SafeState.ENTERING_PIN => handleEnteringPin s b
  | SafeState.UNLOCKED => handleUnlocked s b
  | SafeState.SETTING_NEW_PIN => handleSettingNewPin s b

/-- `readDisplay`: return the display field. -/
def readDisplay (s : SafeImpl) : List Char :=
  s.display

/-- `isLocked`: return the locked field. -/
def isLocked (s : SafeImpl) : Bool :=
  s.locked

/-- Apply a finite sequence of button presses, first press first. -/
def run (s : SafeImpl) (bs : List Button) : SafeImpl :=
  bs.foldl enter s

/-- A state is reachable when some finite press sequence produces it from
the freshly constructed safe. -/
def Reachable (s : SafeImpl) : Prop :=
  ∃ bs : List Button, run initialSafe bs = s

/-- The lock flag the spec derives from the state tag: open exactly in
`UNLOCKED` and `SETTING_NEW_PIN`. -/
def lockedFor : SafeState → Bool
  | SafeState.UNLOCKED => false
  | SafeState.SETTING_NEW_PIN => false
  | _ => true

/-- The digit characters produced by a list of button presses, in order. -/
def digitsOf : List Button → List Char
  | [] => []
  | b :: bs => buttonToDigit b ++ digitsOf bs

/-- Inductive invariant of the safe: the stored lock flag agrees with the
state tag, the unlock-entry buffer rests below 6, the new-PIN buffer rests
at 6 or below, and the stored credential has exactly 6 characters. -/
def Inv (s : SafeImpl) : Prop :=
  s.locked = lockedFor s.state ∧
  s.enteredDigits.length ≤ 5 ∧
  s.newPinBuffer.length ≤ 6 ∧
  s.currentPin.length = 6

/-- The state/input pairs the spec's transition table lists as no-ops. -/
def isNoOpPair (s : SafeImpl) (b : Button) : Bool :=
  match s.state, b with
  | SafeState.LOCKED_IDLE, Button.LOCK => true
  | SafeState.LOCKED_IDLE, Button.PIN => true
  | SafeState.ENTERING_PIN, Button.LOCK => true
  | SafeState.ENTERING_PIN, Button.PIN => true
  | SafeState.UNLOCKED, Button.KEY => true
  | SafeState.UNLOCKED, b => isDigitButton b
  | SafeState.SETTING_NEW_PIN, Button.LOCK => true
  | SafeState.SETTING_NEW_PIN, Button.KEY => true
  | SafeState.SETTING_NEW_PIN, Button.PIN => decide (s.newPinBuffer.length ≠ 6)
  | _, _ => false

/-- A digit button produces exactly one digit character. -/
theorem length_buttonToDigit (b : Button) (h : isDigitButton b = true) :
    (buttonToDigit b).length = 1 := by
  cases b <;> simp_all [isDigitButton, buttonToDigit]

/-- A digit button is none of the control buttons. -/
theorem digit_ne_control (b : Button) (h : isDigitButton b = true) :
    b ≠ Button.KEY ∧ b ≠ Button.LOCK ∧ b ≠ Button.PIN := by
  cases b <;> simp_all [isDigitButton]

/-- Running a concatenation of press sequences runs them in order. -/
theorem run_append (s : SafeImpl) (l1 l2 : List Button) :
    run s (l1 ++ l2) = run (run s l1) l2 :=
  List.foldl_append enter s l1 l2

/-- Running a press sequence one press at a time. -/
theorem run_cons (s : SafeImpl) (b : Button) (bs : List Button) :
    run s (b :: bs) = run (enter s b) bs :=
  rfl

/-- In `LOCKED_IDLE`, `enter` dispatches to `handleLockedIdle`. -/
theorem enter_lockedIdle (s : SafeImpl) (b : Button)
    (hs : s.state = SafeState.LOCKED_IDLE) :
    enter s b = handleLockedIdle s b := by
  unfold enter; rw [hs]

/-- In `LOCKED_ERROR`, `enter` dispatches to `handleLockedError`. -/
theorem enter_lockedError (s : SafeImpl) (b : Button)
    (hs : s.state = SafeState.LOCKED_ERROR) :
    enter s b = handleLockedError s b := by
  unfold enter; rw [hs]

/-- In `ENTERING_PIN`, `enter` dispatches to `handleEnteringPin`. -/
theorem enter_enteringPin (s : SafeImpl) (b : Button)
    (hs : s.state = SafeState.ENTERING_PIN) :
    enter s b = handleEnteringPin s b := by
  unfold enter; rw [hs]

/-- In `UNLOCKED`, `enter` dispatches to `handleUnlocked`. -/
theorem enter_unlocked (s : SafeImpl) (b : Button)
    (hs : s.state = SafeState.UNLOCKED) :
    enter s b = handleUnlocked s b := by
  unfold enter; rw [hs]

/-- In `SETTING_NEW_PIN`, `enter` dispatches to `handleSettingNewPin`. -/
theorem enter_settingNewPin (s : SafeImpl) (b : Button)
    (hs : s.state = SafeState.SETTING_NEW_PIN) :
    enter s b = handleSettingNewPin s b := by
  unfold enter; rw [hs]

/-- `handleLockedIdle` on KEY: PIN entry starts. -/
theorem handleLockedIdle_key (s : SafeImpl) :
    handleLockedIdle s Button.KEY =
      { s with state := SafeState.ENTERING_PIN, enteredDigits := [],
               display := "      ".toList } := by
  simp [handleLockedIdle]

/-- `handleLockedIdle` on LOCK: nothing changes. -/
theorem handleLockedIdle_lock (s : SafeImpl) :
    handleLockedIdle s Button.LOCK = s := by
  simp [handleLockedIdle]

/-- `handleLockedIdle` on a digit: error state. -/
theorem handleLockedIdle_digit (s : SafeImpl) (b : Button)
    (hd : isDigitButton b = true) :
    handleLockedIdle s b =
      { s with state := SafeState.LOCKED_ERROR, display := "ERROR ".toList } := by
  obtain ⟨hk, hl, -⟩ := digit_ne_control b hd
  simp [handleLockedIdle, hd, hk, hl]

/-- `handleLockedIdle` on PIN: nothing changes. -/
theorem handleLockedIdle_pin (s : SafeImpl) :
    handleLockedIdle s Button.PIN = s := by
  simp [handleLockedIdle, isDigitButton]

/-- `handleLockedError` on KEY: error cleared, PIN entry starts. -/
theorem handleLockedError_key (s : SafeImpl) :
    handleLockedError s Button.KEY =
      { s with state := SafeState.ENTERING_PIN, enteredDigits := [],
               display := "      ".toList } := by
  simp [handleLockedError]

/-- `handleLockedError` on any other button: `ERROR ` is shown again. -/
theorem handleLockedError_other (s : SafeImpl) (b : Button)
    (hk : b ≠ Button.KEY) :
    handleLockedError s b = { s with display := "ERROR ".toList } := by
  simp [handleLockedError, hk]

/-- `handleEnteringPin` on the digit completing a correct entry: unlock. -/
theorem handleEnteringPin_match (s : SafeImpl) (b : Button)
    (hd : isDigitButton b = true)
    (h6 : (s.enteredDigits ++ buttonToDigit b).length = 6)
    (hm : s.enteredDigits ++ buttonToDigit b = s.currentPin) :
    handleEnteringPin s b =
      { s with locked := false, display := "OPEN  ".toList,
               state := SafeState.UNLOCKED, enteredDigits := [] } := by
  have h6x : s.enteredDigits.length + (buttonToDigit b).length = 6 := by
    simpa using h6
  have hc : s.currentPin.length = 6 := hm ▸ h6
  simp [handleEnteringPin, hd, h6x, hm, hc]

/-- `handleEnteringPin` on the digit completing a wrong entry: back to idle. -/
theorem handleEnteringPin_mismatch (s : SafeImpl) (b : Button)
    (hd : isDigitButton b = true)
    (h6 : (s.enteredDigits ++ buttonToDigit b).length = 6)
    (hm : s.enteredDigits ++ buttonToDigit b ≠ s.currentPin) :
    handleEnteringPin s b =
      { s with display := "      ".toList,
               state := SafeState.LOCKED_IDLE, enteredDigits := [] } := by
  have h6x : s.enteredDigits.length + (buttonToDigit b).length = 6 := by
    simpa using h6
  simp [handleEnteringPin, hd, h6x, hm]

/-- `handleEnteringPin` on a digit that does not complete the entry. -/
theorem handleEnteringPin_digit_short (s : SafeImpl) (b : Button)
    (hd : isDigitButton b = true)
    (h6 : (s.enteredDigits ++ buttonToDigit b).length ≠ 6) :
    handleEnteringPin s b =
      { s with enteredDigits := s.enteredDigits ++ buttonToDigit b,
               display := padEnd6 (s.enteredDigits ++ buttonToDigit b) } := by
  have h6x : ¬ s.enteredDigits.length + (buttonToDigit b).length = 6 := by
    simpa using h6
  simp [handleEnteringPin, hd, h6x]

/-- `handleEnteringPin` on KEY: the entry is reset. -/
theorem handleEnteringPin_key (s : SafeImpl) :
    handleEnteringPin s Button.KEY =
      { s with enteredDigits := [], display := "      ".toList } := by
  simp [handleEnteringPin, isDigitButton]

/-- `handleEnteringPin` on LOCK or PIN: nothing changes. -/
theorem handleEnteringPin_other (s : SafeImpl) (b : Button)
    (hd : isDigitButton b = false) (hk : b ≠ Button.KEY) :
    handleEnteringPin s b = s := by
  simp [handleEnteringPin, hd, hk]

/-- `handleUnlocked` on LOCK: the safe locks. -/
theorem handleUnlocked_lock (s : SafeImpl) :
    handleUnlocked s Button.LOCK =
      { s with locked := true, display := "CLOSED".toList,
               state := SafeState.LOCKED_IDLE } := by
  simp [handleUnlocked]

/-- `handleUnlocked` on PIN: setting a new PIN starts. -/
theorem handleUnlocked_pin (s : SafeImpl) :
    handleUnlocked s Button.PIN =
      { s with state := SafeState.SETTING_NEW_PIN, newPinBuffer := [],
               display := "      ".toList } := by
  simp [handleUnlocked]

/-- `handleUnlocked` on digits or KEY: nothing changes. -/
theorem handleUnlocked_other (s : SafeImpl) (b : Button)
    (hl : b ≠ Button.LOCK) (hp : b ≠ Button.PIN) :
    handleUnlocked s b = s := by
  simp [handleUnlocked, hl, hp]

/-- `handleSettingNewPin` on a digit that keeps the buffer at 6 or below. -/
theorem handleSettingNewPin_digit_le (s : SafeImpl) (b : Button)
    (hd : isDigitButton b = true)
    (hle : (s.newPinBuffer ++ buttonToDigit b).length ≤ 6) :
    handleSettingNewPin s b =
      { s with newPinBuffer := s.newPinBuffer ++ buttonToDigit b,
               display := padEnd6 (s.newPinBuffer ++ buttonToDigit b) } := by
  have hx : ¬ s.newPinBuffer.length + (buttonToDigit b).length > 6 := by
    simpa using hle
  simp [handleSettingNewPin, hd, hx]

/-- `handleSettingNewPin` on a digit that overflows the buffer: the display
keeps all digits, the buffer is truncated to 6. -/
theorem handleSettingNewPin_digit_gt (s : SafeImpl) (b : Button)
    (hd : isDigitButton b = true)
    (hgt : (s.newPinBuffer ++ buttonToDigit b).length > 6) :
    handleSettingNewPin s b =
      { s with newPinBuffer := (s.newPinBuffer ++ buttonToDigit b).take 6,
               display := padEnd6 (s.newPinBuffer ++ buttonToDigit b) } := by
  have hx : s.newPinBuffer.length + (buttonToDigit b).length > 6 := by
    simpa using hgt
  simp [handleSettingNewPin, hd, hx]

/-- `handleSettingNewPin` on PIN with exactly 6 buffered digits: commit. -/
theorem handleSettingNewPin_commit (s : SafeImpl)
    (h6 : s.newPinBuffer.length = 6) :
    handleSettingNewPin s Button.PIN =
      { s with currentPin := s.newPinBuffer, display := "CODE  ".toList,
               state := SafeState.UNLOCKED, newPinBuffer := [] } := by
  simp [handleSettingNewPin, isDigitButton, h6]

/-- `handleSettingNewPin` on PIN without exactly 6 buffered digits: rejected. -/
theorem handleSettingNewPin_pin_short (s : SafeImpl)
    (h6 : s.newPinBuffer.length ≠ 6) :
    handleSettingNewPin s Button.PIN = s := by
  simp [handleSettingNewPin, isDigitButton, h6]

/-- `handleSettingNewPin` on LOCK or KEY: nothing changes. -/
theorem handleSettingNewPin_other (s : SafeImpl) (b : Button)
    (hd : isDigitButton b = false) (hp : b ≠ Button.PIN) :
    handleSettingNewPin s b = s := by
  simp [handleSettingNewPin, hd, hp]

/-- The freshly constructed safe satisfies the invariant. -/
theorem inv_initialSafe : Inv initialSafe := by
  unfold Inv
  refine ⟨rfl, ?_, ?_, ?_⟩ <;> decide

/-- One button press preserves the invariant. -/
theorem inv_enter (s : SafeImpl) (b : Button) (h : Inv s) : Inv (enter s b) := by
  obtain ⟨hl, he, hn, hp⟩ := h
  by_cases hd : isDigitButton b = true
  · cases hs : s.state
    ·
      rw [enter_lockedIdle s b hs, handleLockedIdle_digit s b hd]
      exact ⟨by simp [lockedFor, hl, hs], he, hn, hp⟩
    ·
      rw [enter_lockedError s b hs,
        handleLockedError_other s b (digit_ne_control b hd).1]
      exact ⟨by simp [lockedFor, hl, hs], he, hn, hp⟩
    ·
      rw [enter_enteringPin s b hs]
      by_cases h6 : (s.enteredDigits ++ buttonToDigit b).length = 6
      · by_cases hm : s.enteredDigits ++ buttonToDigit b = s.currentPin
        · rw [handleEnteringPin_match s b hd h6 hm]
          exact ⟨by simp [lockedFor], by simp, hn, hp⟩
        · rw [handleEnteringPin_mismatch s b hd h6 hm]
          exact ⟨by simp [lockedFor, hl, hs], by simp, hn, hp⟩
      · rw [handleEnteringPin_digit_short s b hd h6]
        refine ⟨by simp [lockedFor, hl, hs], ?_, hn, hp⟩
        show (s.enteredDigits ++ buttonToDigit b).length ≤ 5
        rw [List.length_append, length_buttonToDigit b hd] at h6 ⊢
        omega
    ·
      rw [enter_unlocked s b hs,
        handleUnlocked_other s b (digit_ne_control b hd).2.1 (digit_ne_control b hd).2.2]
      exact ⟨by simp [lockedFor, hl, hs], he, hn, hp⟩
    ·
      rw [enter_settingNewPin s b hs]
      by_cases hgt : (s.newPinBuffer ++ buttonToDigit b).length > 6
      · rw [handleSettingNewPin_digit_gt s b hd hgt]
        refine ⟨by simp [lockedFor, hl, hs], he, ?_, hp⟩
        show ((s.newPinBuffer ++ buttonToDigit b).take 6).length ≤ 6
        simp [List.length_take]
      · rw [handleSettingNewPin_digit_le s b hd (Nat.le_of_not_lt hgt)]
        exact ⟨by simp [lockedFor, hl, hs], he, Nat.le_of_not_lt hgt, hp⟩
  · replace hd : isDigitButton b = false := by simpa using hd
    cases b <;> simp [isDigitButton] at hd <;> clear hd
    ·
      cases hs : s.state
      ·
        rw [enter_lockedIdle s _ hs, handleLockedIdle_lock]
        exact ⟨hl, he, hn, hp⟩
      ·
        rw [enter_lockedError s _ hs, handleLockedError_other s _ (by decide)]
        exact ⟨by simp [lockedFor, hl, hs], he, hn, hp⟩
      ·
        rw [enter_enteringPin s _ hs, handleEnteringPin_other s Button.LOCK rfl (by decide)]
        exact ⟨hl, he, hn, hp⟩
      ·
        rw [enter_unlocked s _ hs, handleUnlocked_lock]
        exact ⟨by simp [lockedFor], he, hn, hp⟩
      ·
        rw [enter_settingNewPin s _ hs, handleSettingNewPin_other s Button.LOCK rfl (by decide)]
        exact ⟨hl, he, hn, hp⟩
    ·
      cases hs : s.state
      ·
        rw [enter_lockedIdle s _ hs, handleLockedIdle_key]
        exact ⟨by simp [lockedFor, hl, hs], by simp, hn, hp⟩
      ·
        rw [enter_lockedError s _ hs, handleLockedError_key]
        exact ⟨by simp [lockedFor, hl, hs], by simp, hn, hp⟩
      ·
        rw [enter_enteringPin s _ hs, handleEnteringPin_key]
        exact ⟨by simp [lockedFor, hl, hs], by simp, hn, hp⟩
      ·
        rw [enter_unlocked s _ hs, handleUnlocked_other s _ (by decide) (by decide)]
        exact ⟨hl, he, hn, hp⟩
      ·
        rw [enter_settingNewPin s _ hs, handleSettingNewPin_other s Button.KEY rfl (by decide)]
        exact ⟨hl, he, hn, hp⟩
    ·
      cases hs : s.state
      ·
        rw [enter_lockedIdle s _ hs, handleLockedIdle_pin]
        exact ⟨hl, he, hn, hp⟩
      ·
        rw [enter_lockedError s _ hs, handleLockedError_other s _ (by decide)]
        exact ⟨by simp [lockedFor, hl, hs], he, hn, hp⟩
      ·
        rw [enter_enteringPin s _ hs, handleEnteringPin_other s Button.PIN rfl (by decide)]
        exact ⟨hl, he, hn, hp⟩
      ·
        rw [enter_unlocked s _ hs, handleUnlocked_pin]
        exact ⟨by simp [lockedFor, hl, hs], he, by simp, hp⟩
      ·
        by_cases h6 : s.newPinBuffer.length = 6
        · rw [enter_settingNewPin s _ hs, handleSettingNewPin_commit s h6]
          exact ⟨by simp [lockedFor, hl, hs], he, by simp, h6⟩
        · rw [enter_settingNewPin s _ hs, handleSettingNewPin_pin_short s h6]
          exact ⟨hl, he, hn, hp⟩

/-- Any finite press sequence preserves the invariant. -/
theorem inv_run (s : SafeImpl) (bs : List Button) (h : Inv s) : Inv (run s bs) := by
  induction bs generalizing s with
  | nil => exact h
  | cons b bs ih => exact ih (enter s b) (inv_enter s b h)

/-- Every reachable state satisfies the invariant. -/
theorem inv_of_reachable (s : SafeImpl) (h : Reachable s) : Inv s := by
  obtain ⟨bs, rfl⟩ := h
  exact inv_run initialSafe bs inv_initialSafe


/-- A list of digit presses produces one character per press. -/
theorem digitsOf_length (C : List Button) (hC : ∀ b ∈ C, isDigitButton b = true) :
    (digitsOf C).length = C.length := by
  induction C with
  | nil => rfl
  | cons b bs ih =>
    have hd : isDigitButton b = true := hC b (List.mem_cons_self b bs)
    have hrest : ∀ x ∈ bs, isDigitButton x = true :=
      fun x hx => hC x (List.mem_cons_of_mem b hx)
    simp [digitsOf, length_buttonToDigit b hd, ih hrest, Nat.add_comm]

/-- Entering digit presses while setting a new PIN, as long as the buffer
stays at 6 or below: the digits accumulate in the buffer and nothing else
of consequence changes. -/
theorem run_setting_digits (C : List Button) (s : SafeImpl)
    (hs : s.state = SafeState.SETTING_NEW_PIN)
    (hC : ∀ b ∈ C, isDigitButton b = true)
    (hlen : s.newPinBuffer.length + C.length ≤ 6) :
    (run s C).state = SafeState.SETTING_NEW_PIN ∧
    (run s C).newPinBuffer = s.newPinBuffer ++ digitsOf C ∧
    (run s C).currentPin = s.currentPin ∧
    (run s C).locked = s.locked ∧
    (run s C).enteredDigits = s.enteredDigits := by
  induction C generalizing s with
  | nil => exact ⟨hs, by simp [run, digitsOf], rfl, rfl, rfl⟩
  | cons b bs ih =>
    have hd : isDigitButton b = true := hC b (List.mem_cons_self b bs)
    have hb1 : (buttonToDigit b).length = 1 := length_buttonToDigit b hd
    have hlen0 : s.newPinBuffer.length + (1 + bs.length) ≤ 6 := by
      simpa [Nat.add_comm] using hlen
    have hle : (s.newPinBuffer ++ buttonToDigit b).length ≤ 6 := by
      rw [List.length_append, hb1]
      omega
    rw [run_cons, enter_settingNewPin s b hs, handleSettingNewPin_digit_le s b hd hle]
    have hrest : ∀ x ∈ bs, isDigitButton x = true :=
      fun x hx => hC x (List.mem_cons_of_mem b hx)
    obtain ⟨h1, h2, h3, h4, h5⟩ :=
      ih { s with newPinBuffer := s.newPinBuffer ++ buttonToDigit b,
                  display := padEnd6 (s.newPinBuffer ++ buttonToDigit b) }
        hs hrest (by simp [List.length_append, hb1]; omega)
    refine ⟨h1, ?_, h3, h4, h5⟩
    rw [h2]
    simp [digitsOf, List.append_assoc]

/-- Entering a complete run of digit presses while entering the PIN: the
final press decides the attempt against the stored PIN. -/
theorem run_entering_complete (C : List Button) (s : SafeImpl)
    (hs : s.state = SafeState.ENTERING_PIN)
    (hC : ∀ b ∈ C, isDigitButton b = true)
    (hne : C ≠ [])
    (hlen : s.enteredDigits.length + C.length = 6) :
    (s.enteredDigits ++ digitsOf C = s.currentPin →
      (run s C).locked = false ∧ (run s C).state = SafeState.UNLOCKED) ∧
    (s.enteredDigits ++ digitsOf C ≠ s.currentPin →
      (run s C).locked = s.locked ∧ (run s C).state = SafeState.LOCKED_IDLE) := by
  induction C generalizing s with
  | nil => exact absurd rfl hne
  | cons b bs ih =>
    have hd : isDigitButton b = true := hC b (List.mem_cons_self b bs)
    have hb1 : (buttonToDigit b).length = 1 := length_buttonToDigit b hd
    rcases List.eq_nil_or_concat bs with hbs | _
    all_goals rw [run_cons, enter_enteringPin s b hs]
    · subst hbs
      have h6 : (s.enteredDigits ++ buttonToDigit b).length = 6 := by
        rw [List.length_append, hb1]
        simpa using hlen
      have hflat : s.enteredDigits ++ digitsOf [b] = s.enteredDigits ++ buttonToDigit b := by
        simp [digitsOf]
      constructor
      · intro hm
        rw [hflat] at hm
        rw [handleEnteringPin_match s b hd h6 hm]
        exact ⟨rfl, rfl⟩
      · intro hm
        rw [hflat] at hm
        rw [handleEnteringPin_mismatch s b hd h6 hm]
        exact ⟨rfl, rfl⟩
    · have hbs : bs ≠ [] := by
        rename_i hcat
        obtain ⟨l, x, rfl⟩ := hcat
        simp
      have hbslen : 1 ≤ bs.length := by
        cases bs with
        | nil => exact absurd rfl hbs
        | cons x xs => simp
      have hlt : (s.enteredDigits ++ buttonToDigit b).length ≠ 6 := by
        rw [List.length_append, hb1]
        simp only [List.length_cons] at hlen
        omega
      rw [handleEnteringPin_digit_short s b hd hlt]
      have hrest : ∀ x ∈ bs, isDigitButton x = true :=
        fun x hx => hC x (List.mem_cons_of_mem b hx)
      have hlen2 : (s.enteredDigits ++ buttonToDigit b).length + bs.length = 6 := by
        rw [List.length_append, hb1]
        simp only [List.length_cons] at hlen
        omega
      obtain ⟨hy, hn⟩ :=
        ih { s with enteredDigits := s.enteredDigits ++ buttonToDigit b,
                    display := padEnd6 (s.enteredDigits ++ buttonToDigit b) }
          hs hrest hbs hlen2
      constructor
      · intro hm
        refine hy ?_
        show (s.enteredDigits ++ buttonToDigit b) ++ digitsOf bs = s.currentPin
        rw [List.append_assoc]
        simpa [digitsOf] using hm
      · intro hm
        refine hn ?_
        show ¬ (s.enteredDigits ++ buttonToDigit b) ++ digitsOf bs = s.currentPin
        rw [List.append_assoc]
        simpa [digitsOf] using hm

/-- The press sequence that unlocks a fresh safe with the factory PIN. -/
def unlockDefault : List Button :=
  [Button.KEY, Button.D1, Button.D2, Button.D3, Button.D4, Button.D5, Button.D6]

/-- Seven presses of D7 while setting a new PIN, after unlocking. -/
def overflowSeq : List Button :=
  unlockDefault ++ [Button.PIN, Button.D7, Button.D7, Button.D7, Button.D7,
    Button.D7, Button.D7, Button.D7]

/-- C1: the claim says `readDisplay()` has exactly 6 characters in every
reachable state; the code violates it.  After unlocking with the factory
PIN, pressing PIN and then seven digits sets the display from the 7-digit
buffer before truncating the buffer, so `readDisplay()` returns 7
characters.  This contradicts the interface's stated postcondition. -/
theorem C1_display_length_violated :
    readDisplay (run initialSafe overflowSeq) =
      ['7', '7', '7', '7', '7', '7', '7'] ∧
    (readDisplay (run initialSafe overflowSeq)).length = 7 := by
  constructor <;> decide

/-- C3: in every reachable state the stored lock flag agrees with the value
derived from the state tag: `isLocked()` is false exactly in `UNLOCKED` and
`SETTING_NEW_PIN`, true in the three locked states. -/
theorem C3_isLocked_derived_from_state (s : SafeImpl) (hr : Reachable s) :
    isLocked s = false ↔
      (s.state = SafeState.UNLOCKED ∨ s.state = SafeState.SETTING_NEW_PIN) := by
  have hi := inv_of_reachable s hr
  rw [isLocked, hi.1]
  cases s.state <;> simp [lockedFor]

/-- Witness for C3 at the reachable unlocked state. -/
theorem C3_isLocked_derived_from_state_witness :
    isLocked (run initialSafe unlockDefault) = false ↔
      ((run initialSafe unlockDefault).state = SafeState.UNLOCKED ∨
       (run initialSafe unlockDefault).state = SafeState.SETTING_NEW_PIN) :=
  C3_isLocked_derived_from_state (run initialSafe unlockDefault)
    ⟨unlockDefault, rfl⟩

/-- Entering six digits of a new PIN after unlocking with the factory PIN. -/
def pendingSeq : List Button :=
  unlockDefault ++ [Button.PIN, Button.D7, Button.D7, Button.D7, Button.D3,
    Button.D3, Button.D3]

/-- C4 counterexample: after six digits while setting a new PIN, the call
returns with the buffer resting at length 6, state still `SETTING_NEW_PIN`
and the credential unchanged — the buffered digits were neither committed
nor rejected, awaiting a later PIN press. -/
theorem C4_newpin_buffer_left_pending :
    (run initialSafe pendingSeq).newPinBuffer.length = 6 ∧
    (run initialSafe pendingSeq).state = SafeState.SETTING_NEW_PIN ∧
    (run initialSafe pendingSeq).currentPin = "123456".toList := by
  refine ⟨?_, ?_, ?_⟩ <;> decide

/-- C4 amended: after every call both buffers have length in [0,6]; the
unlock-entry buffer in fact never rests at length 6 (its completion is
decided in the same call), while the new-PIN buffer may rest at 6. -/
theorem C4_buffer_bounds (s : SafeImpl) (hr : Reachable s) :
    s.enteredDigits.length ≤ 5 ∧ s.newPinBuffer.length ≤ 6 :=
  ⟨(inv_of_reachable s hr).2.1, (inv_of_reachable s hr).2.2.1⟩

/-- Witness for C4 amended at the state with a resting full new-PIN buffer. -/
theorem C4_buffer_bounds_witness :
    (run initialSafe pendingSeq).enteredDigits.length ≤ 5 ∧
    (run initialSafe pendingSeq).newPinBuffer.length ≤ 6 :=
  C4_buffer_bounds (run initialSafe pendingSeq) ⟨pendingSeq, rfl⟩

/-- C6: `enter` is a total function on the full button set by construction,
and every state/input pair the transition table leaves without an effect is
a strict no-op: the state record — hence display and lock flag — is
returned unchanged. -/
theorem C6_unlisted_pairs_are_noops (s : SafeImpl) (b : Button)
    (h : isNoOpPair s b = true) :
    enter s b = s := by
  cases hs : s.state <;> cases b <;>
    simp_all [isNoOpPair, enter, handleLockedIdle, handleLockedError,
      handleEnteringPin, handleUnlocked, handleSettingNewPin, isDigitButton]

/-- Witness for C6: LOCK in the initial locked-idle state is a no-op. -/
theorem C6_unlisted_pairs_are_noops_witness :
    isNoOpPair initialSafe Button.LOCK = true ∧
    enter initialSafe Button.LOCK = initialSafe :=
  ⟨by decide, C6_unlisted_pairs_are_noops initialSafe Button.LOCK (by decide)⟩

/-- C8: in `SETTING_NEW_PIN`, PIN commits exactly when the buffer holds 6
digits: the buffer becomes the credential, the display `CODE  `, the state
`UNLOCKED`, the buffer is cleared; with fewer than 6 digits the press is
rejected and the whole state is unchanged. -/
theorem C8_commit_iff_full_buffer (s : SafeImpl)
    (hs : s.state = SafeState.SETTING_NEW_PIN) :
    (s.newPinBuffer.length = 6 →
      enter s Button.PIN =
        { s with currentPin := s.newPinBuffer, display := "CODE  ".toList,
                 state := SafeState.UNLOCKED, newPinBuffer := [] }) ∧
    (s.newPinBuffer.length < 6 → enter s Button.PIN = s) := by
  constructor
  · intro h6
    rw [enter_settingNewPin s Button.PIN hs, handleSettingNewPin_commit s h6]
  · intro hlt
    rw [enter_settingNewPin s Button.PIN hs,
      handleSettingNewPin_pin_short s (Nat.ne_of_lt hlt)]

/-- Witness for C8: commit with the full buffer `777333`, rejection with
the 3-digit buffer `777`. -/
theorem C8_commit_iff_full_buffer_witness :
    enter (run initialSafe pendingSeq) Button.PIN =
      { run initialSafe pendingSeq with
          currentPin := (run initialSafe pendingSeq).newPinBuffer,
          display := "CODE  ".toList,
          state := SafeState.UNLOCKED, newPinBuffer := [] } ∧
    enter (run initialSafe (unlockDefault ++ [Button.PIN, Button.D7, Button.D7,
        Button.D7])) Button.PIN =
      run initialSafe (unlockDefault ++ [Button.PIN, Button.D7, Button.D7,
        Button.D7]) :=
  ⟨(C8_commit_iff_full_buffer (run initialSafe pendingSeq) (by decide)).1
      (by decide),
   (C8_commit_iff_full_buffer (run initialSafe (unlockDefault ++ [Button.PIN,
        Button.D7, Button.D7, Button.D7])) (by decide)).2 (by decide)⟩

/-- C9: in any state tagged `LOCKED_IDLE` a LOCK press returns the state
unchanged, so display and lock flag are unchanged, and so is any number of
repeated LOCK presses. -/
theorem C9_lock_idempotent_while_locked (s : SafeImpl) (n : Nat)
    (hs : s.state = SafeState.LOCKED_IDLE) :
    enter s Button.LOCK = s ∧
    readDisplay (run s (List.replicate n Button.LOCK)) = readDisplay s ∧
    isLocked (run s (List.replicate n Button.LOCK)) = isLocked s := by
  have h1 : enter s Button.LOCK = s := by
    rw [enter_lockedIdle s Button.LOCK hs, handleLockedIdle_lock]
  have h2 : run s (List.replicate n Button.LOCK) = s := by
    induction n with
    | zero => rfl
    | succ k ih => rw [List.replicate_succ, run_cons, h1]; exact ih
  exact ⟨h1, by rw [h2], by rw [h2]⟩

/-- Witness for C9 at the initial state with three repeated LOCK presses. -/
theorem C9_lock_idempotent_while_locked_witness :
    enter initialSafe Button.LOCK = initialSafe ∧
    readDisplay (run initialSafe (List.replicate 3 Button.LOCK)) =
      readDisplay initialSafe ∧
    isLocked (run initialSafe (List.replicate 3 Button.LOCK)) =
      isLocked initialSafe :=
  C9_lock_idempotent_while_locked initialSafe 3 rfl

/-- C2: in a reachable `ENTERING_PIN` state with 5 digits entered, a digit
press decides the attempt in the same call: on whole-sequence equality with
the credential the safe unlocks with display `OPEN  `; otherwise it returns
to `LOCKED_IDLE` with a blank display and stays locked (the first conjunct
gives `isLocked() = true` before and hence, the flag being untouched in the
else branch, after the press); the entry buffer is cleared either way. -/
theorem C2_entry_completion_decides (s : SafeImpl) (b : Button)
    (hr : Reachable s) (hs : s.state = SafeState.ENTERING_PIN)
    (h5 : s.enteredDigits.length = 5) (hd : isDigitButton b = true) :
    s.locked = true ∧
    enter s b =
      (if s.enteredDigits ++ buttonToDigit b = s.currentPin then
        { s with locked := false, display := "OPEN  ".toList,
                 state := SafeState.UNLOCKED, enteredDigits := [] }
      else
        { s with display := "      ".toList,
                 state := SafeState.LOCKED_IDLE, enteredDigits := [] }) := by
  have hi := inv_of_reachable s hr
  have hlock : s.locked = true := by
    rw [hi.1, hs]
    rfl
  have h6 : (s.enteredDigits ++ buttonToDigit b).length = 6 := by
    rw [List.length_append, length_buttonToDigit b hd, h5]
  refine ⟨hlock, ?_⟩
  rw [enter_enteringPin s b hs]
  by_cases hm : s.enteredDigits ++ buttonToDigit b = s.currentPin
  · rw [if_pos hm, handleEnteringPin_match s b hd h6 hm]
  · rw [if_neg hm, handleEnteringPin_mismatch s b hd h6 hm]

/-- Five digit presses of the factory PIN after KEY. -/
def fiveOfDefault : List Button :=
  [Button.KEY, Button.D1, Button.D2, Button.D3, Button.D4, Button.D5]

/-- Witness for C2 at the reachable state with `12345` entered, pressing 6. -/
theorem C2_entry_completion_decides_witness :
    (run initialSafe fiveOfDefault).locked = true ∧
    enter (run initialSafe fiveOfDefault) Button.D6 =
      (if (run initialSafe fiveOfDefault).enteredDigits ++
            buttonToDigit Button.D6 =
          (run initialSafe fiveOfDefault).currentPin then
        { run initialSafe fiveOfDefault with
            locked := false, display := "OPEN  ".toList,
            state := SafeState.UNLOCKED, enteredDigits := [] }
      else
        { run initialSafe fiveOfDefault with
            display := "      ".toList,
            state := SafeState.LOCKED_IDLE, enteredDigits := [] }) :=
  C2_entry_completion_decides (run initialSafe fiveOfDefault) Button.D6
    ⟨fiveOfDefault, rfl⟩ (by decide) (by decide) (by decide)

/-- C7: the error path.  From a reachable `LOCKED_IDLE` state a digit press
yields `LOCKED_ERROR` with display `ERROR `; in a reachable `LOCKED_ERROR`
state every non-KEY press leaves the state `LOCKED_ERROR` redisplaying
`ERROR `, and KEY moves to `ENTERING_PIN` with a blank display while
`isLocked()` stays true. -/
theorem C7_error_path (s : SafeImpl) (b : Button) (hr : Reachable s) :
    (s.state = SafeState.LOCKED_IDLE → isDigitButton b = true →
      enter s b =
        { s with state := SafeState.LOCKED_ERROR,
                 display := "ERROR ".toList }) ∧
    (s.state = SafeState.LOCKED_ERROR → b ≠ Button.KEY →
      enter s b = { s with display := "ERROR ".toList }) ∧
    (s.state = SafeState.LOCKED_ERROR →
      enter s Button.KEY =
        { s with state := SafeState.ENTERING_PIN, enteredDigits := [],
                 display := "      ".toList } ∧
      isLocked (enter s Button.KEY) = true) := by
  have hi := inv_of_reachable s hr
  refine ⟨?_, ?_, ?_⟩
  · intro hs hd
    rw [enter_lockedIdle s b hs, handleLockedIdle_digit s b hd]
  · intro hs hk
    rw [enter_lockedError s b hs, handleLockedError_other s b hk]
  · intro hs
    have hlock : s.locked = true := by
      rw [hi.1, hs]
      rfl
    have heq : enter s Button.KEY =
        { s with state := SafeState.ENTERING_PIN, enteredDigits := [],
                 display := "      ".toList } := by
      rw [enter_lockedError s Button.KEY hs, handleLockedError_key]
    exact ⟨heq, by rw [isLocked, heq]; exact hlock⟩

/-- Witness for C7: digit 1 from the initial state errors; in the resulting
error state digit 2 redisplays `ERROR `, and KEY blanks the display while
the safe stays locked. -/
theorem C7_error_path_witness :
    enter initialSafe Button.D1 =
      { initialSafe with
          state := SafeState.LOCKED_ERROR,
          display := "ERROR ".toList } ∧
    enter (run initialSafe [Button.D1]) Button.D2 =
      { run initialSafe [Button.D1] with display := "ERROR ".toList } ∧
    enter (run initialSafe [Button.D1]) Button.KEY =
      { run initialSafe [Button.D1] with
          state := SafeState.ENTERING_PIN, enteredDigits := [],
          display := "      ".toList } ∧
    isLocked (enter (run initialSafe [Button.D1]) Button.KEY) = true :=
  ⟨(C7_error_path initialSafe Button.D1 ⟨[], rfl⟩).1 rfl rfl,
   (C7_error_path (run initialSafe [Button.D1]) Button.D2
      ⟨[Button.D1], rfl⟩).2.1 (by decide) (by decide),
   (C7_error_path (run initialSafe [Button.D1]) Button.KEY
      ⟨[Button.D1], rfl⟩).2.2 (by decide)⟩

/-- `handleLockedIdle` never touches the lock flag. -/
theorem handleLockedIdle_locked (s : SafeImpl) (b : Button) :
    (handleLockedIdle s b).locked = s.locked := by
  unfold handleLockedIdle
  split_ifs <;> rfl

/-- `handleLockedError` never touches the lock flag. -/
theorem handleLockedError_locked (s : SafeImpl) (b : Button) :
    (handleLockedError s b).locked = s.locked := by
  unfold handleLockedError
  split_ifs <;> rfl

/-- C10: a locked reachable safe stays locked across any single input,
except a digit press in `ENTERING_PIN` that completes a 6-digit entry equal
to the stored credential — the only way `isLocked()` can turn false. -/
theorem C10_unlock_only_by_correct_entry (s : SafeImpl) (b : Button)
    (hr : Reachable s) (hl : isLocked s = true)
    (hu : isLocked (enter s b) = false) :
    s.state = SafeState.ENTERING_PIN ∧ isDigitButton b = true ∧
    (s.enteredDigits ++ buttonToDigit b).length = 6 ∧
    s.enteredDigits ++ buttonToDigit b = s.currentPin := by
  have hi := inv_of_reachable s hr
  rw [isLocked] at hl hu
  cases hs : s.state
  case LOCKED_IDLE =>
    rw [enter_lockedIdle s b hs, handleLockedIdle_locked, hl] at hu
    exact absurd hu (by simp)
  case LOCKED_ERROR =>
    rw [enter_lockedError s b hs, handleLockedError_locked, hl] at hu
    exact absurd hu (by simp)
  case ENTERING_PIN =>
    by_cases hd : isDigitButton b = true
    · by_cases h6 : (s.enteredDigits ++ buttonToDigit b).length = 6
      · by_cases hm : s.enteredDigits ++ buttonToDigit b = s.currentPin
        · exact ⟨rfl, hd, h6, hm⟩
        · rw [enter_enteringPin s b hs,
            handleEnteringPin_mismatch s b hd h6 hm] at hu
          simp [hl] at hu
      · rw [enter_enteringPin s b hs,
          handleEnteringPin_digit_short s b hd h6] at hu
        simp [hl] at hu
    · replace hd : isDigitButton b = false := by simpa using hd
      by_cases hk : b = Button.KEY
      · subst hk
        rw [enter_enteringPin s Button.KEY hs, handleEnteringPin_key] at hu
        simp [hl] at hu
      · rw [enter_enteringPin s b hs,
          handleEnteringPin_other s b hd hk, hl] at hu
        exact absurd hu (by simp)
  case UNLOCKED =>
    rw [hi.1, hs] at hl
    exact absurd hl (by simp [lockedFor])
  case SETTING_NEW_PIN =>
    rw [hi.1, hs] at hl
    exact absurd hl (by simp [lockedFor])

/-- Witness for C10 at the reachable state with `12345` entered: pressing 6
unlocks, and the theorem certifies it is the completing correct entry. -/
theorem C10_unlock_only_by_correct_entry_witness :
    (run initialSafe fiveOfDefault).state = SafeState.ENTERING_PIN ∧
    isDigitButton Button.D6 = true ∧
    ((run initialSafe fiveOfDefault).enteredDigits ++
        buttonToDigit Button.D6).length = 6 ∧
    (run initialSafe fiveOfDefault).enteredDigits ++ buttonToDigit Button.D6 =
      (run initialSafe fiveOfDefault).currentPin :=
  C10_unlock_only_by_correct_entry (run initialSafe fiveOfDefault) Button.D6
    ⟨fiveOfDefault, rfl⟩ (by decide) (by decide)

/-- C5 counterexample: the claim quantifies over every 6-digit sequence C,
but when C equals the previous credential the second half fails.  Starting
unlocked with the factory credential `123456` and choosing C = 1,2,3,4,5,6,
the sequence PIN, C, PIN, LOCK, KEY followed by the digits of the previous
credential ends with `isLocked() = false`, not true as claimed. -/
theorem C5_fails_when_new_equals_old :
    isLocked (run initialSafe (unlockDefault ++
      [Button.PIN, Button.D1, Button.D2, Button.D3, Button.D4, Button.D5,
       Button.D6, Button.PIN, Button.LOCK, Button.KEY,
       Button.D1, Button.D2, Button.D3, Button.D4, Button.D5, Button.D6])) =
      false := by
  decide

/-- C5 amended: from a reachable `UNLOCKED` state, for every 6-digit-button
sequence C, pressing PIN, C, PIN, LOCK, KEY, C ends unlocked; and pressing
PIN, C, PIN, LOCK, KEY followed by the digits of the previous credential
ends locked, provided the previous credential differs from the digits of C. -/
theorem C5_round_trip_distinct_credentials (s : SafeImpl) (C O : List Button)
    (_hr : Reachable s) (hs : s.state = SafeState.UNLOCKED)
    (hC : ∀ b ∈ C, isDigitButton b = true) (hC6 : C.length = 6)
    (hO : ∀ b ∈ O, isDigitButton b = true) (hO6 : O.length = 6)
    (hOold : digitsOf O = s.currentPin)
    (hdiff : s.currentPin ≠ digitsOf C) :
    isLocked (run s ([Button.PIN] ++ C ++
      [Button.PIN, Button.LOCK, Button.KEY] ++ C)) = false ∧
    isLocked (run s ([Button.PIN] ++ C ++
      [Button.PIN, Button.LOCK, Button.KEY] ++ O)) = true := by
  have hXne : ∀ X : List Button, X.length = 6 → X ≠ [] := by
    intro X h6 hnil
    rw [hnil] at h6
    simp at h6
  have e1 : run s [Button.PIN] =
      { s with state := SafeState.SETTING_NEW_PIN, newPinBuffer := [],
               display := "      ".toList } := by
    show enter s Button.PIN = _
    rw [enter_unlocked s Button.PIN hs, handleUnlocked_pin]
  obtain ⟨m1, m2, m3, m4, m5⟩ :=
    run_setting_digits C
      { s with state := SafeState.SETTING_NEW_PIN
               newPinBuffer := []
               display := "      ".toList } rfl hC (by simp [hC6])
  have m2a : (run { s with state := SafeState.SETTING_NEW_PIN
                           newPinBuffer := []
                           display := "      ".toList } C).newPinBuffer =
      digitsOf C := by
    simpa using m2
  have main : ∀ X : List Button, (∀ b ∈ X, isDigitButton b = true) →
      X.length = 6 →
      (digitsOf X = digitsOf C →
        isLocked (run s ([Button.PIN] ++ C ++
          [Button.PIN, Button.LOCK, Button.KEY] ++ X)) = false) ∧
      (digitsOf X ≠ digitsOf C →
        isLocked (run s ([Button.PIN] ++ C ++
          [Button.PIN, Button.LOCK, Button.KEY] ++ X)) = true) := by
    intro X hX hX6
    rw [isLocked, run_append, run_append, run_append, e1]
    generalize hT : run { s with state := SafeState.SETTING_NEW_PIN
                                 newPinBuffer := []
                                 display := "      ".toList } C = t2 at m1 m2a m3
    have h6buf : t2.newPinBuffer.length = 6 := by
      rw [m2a, digitsOf_length C hC, hC6]
    have e2 : run t2 [Button.PIN, Button.LOCK, Button.KEY] =
        { t2 with locked := true, display := "      ".toList,
                  currentPin := t2.newPinBuffer,
                  state := SafeState.ENTERING_PIN, enteredDigits := [],
                  newPinBuffer := [] } := by
      show enter (enter (enter t2 Button.PIN) Button.LOCK) Button.KEY = _
      rw [enter_settingNewPin t2 Button.PIN m1,
        handleSettingNewPin_commit t2 h6buf,
        enter_unlocked _ Button.LOCK rfl, handleUnlocked_lock,
        enter_lockedIdle _ Button.KEY rfl, handleLockedIdle_key]
    rw [e2]
    obtain ⟨hyes, hno⟩ := run_entering_complete X
      { t2 with locked := true, display := "      ".toList,
                currentPin := t2.newPinBuffer,
                state := SafeState.ENTERING_PIN, enteredDigits := [],
                newPinBuffer := [] }
      rfl hX (hXne X hX6) (by simp [hX6])
    constructor
    · intro hdX
      exact (hyes (by simp [hdX, m2a])).1
    · intro hdX
      have hcond : ¬ (([] : List Char) ++ digitsOf X = t2.newPinBuffer) := by
        simp [m2a, hdX]
      exact (hno hcond).1
  refine ⟨(main C hC hC6).1 rfl, (main O hO hO6).2 ?_⟩
  rw [hOold]
  exact hdiff

/-- The six digit presses 7,7,7,3,3,3 used as a new credential. -/
def newPinSeq : List Button :=
  [Button.D7, Button.D7, Button.D7, Button.D3, Button.D3, Button.D3]

/-- The six digit presses of the factory credential 1,2,3,4,5,6. -/
def oldPinSeq : List Button :=
  [Button.D1, Button.D2, Button.D3, Button.D4, Button.D5, Button.D6]

/-- Witness for C5 amended: change the credential to 777333, lock, unlock
with 777333; unlocking with the old 123456 stays locked. -/
theorem C5_round_trip_distinct_credentials_witness :
    isLocked (run (run initialSafe unlockDefault) ([Button.PIN] ++ newPinSeq ++
      [Button.PIN, Button.LOCK, Button.KEY] ++ newPinSeq)) = false ∧
    isLocked (run (run initialSafe unlockDefault) ([Button.PIN] ++ newPinSeq ++
      [Button.PIN, Button.LOCK, Button.KEY] ++ oldPinSeq)) = true :=
  C5_round_trip_distinct_credentials (run initialSafe unlockDefault)
    newPinSeq oldPinSeq ⟨unlockDefault, rfl⟩ (by decide) (by decide)
    (by decide) (by decide) (by decide) (by decide) (by decide)

end HotelSafe
